import Mathlib

/-!
Shallow embedding of the HTTP/1.1 transaction engine in `chunky.hpp`
(`chunky::HTTPTransaction` and `chunky::BaseHTTPServer`).  Each definition
models one C++ function or code path of the source; the theorems at the end
settle the specification claims C1..C10.
-/

namespace Chunky

/-- The error enumeration `chunky::errors`. -/
inductive Err where
  | invalid_request_line
  | invalid_request_header
  | unsupported_http_version
  | invalid_content_length
  | invalid_chunk_length
  | invalid_chunk_delimiter
deriving Repr, DecidableEq

/-- ASCII case fold to lower case, the per-character operation underlying
    `boost::ilexicographical_compare` on the ASCII header names that occur
    on the wire. -/
def asciiLower (c : Char) : Char :=
  if 'A' ≤ c ∧ c ≤ 'Z' then Char.ofNat (c.toNat + 32) else c

/-- The case-folded spelling of a header name. -/
def foldName (s : String) : List Char := s.data.map asciiLower

/-- The equivalence induced by `detail::CaselessCompare` as the key order of
    `std::map`: neither name strictly precedes the other exactly when the
    case-folded spellings agree. -/
def caselessEq (a b : String) : Bool := foldName a == foldName b

/-- `HTTPTransaction::Headers`, a `std::map` keyed by `CaselessCompare`,
    modelled as an association list with at most one entry per caseless
    equivalence class (the invariant every insertion below maintains). -/
abbrev Headers := List (String × String)

/-- `headers.find(k)` under the caseless key equivalence. -/
def lookupH (hs : Headers) (k : String) : Option String :=
  match hs with
  | [] => none
  | (k', v) :: rest => if caselessEq k' k then some v else lookupH rest k

/-- `headers[k] = v`: insert-or-overwrite, as `std::map::operator[]` plus
    assignment does. -/
def setHeader (hs : Headers) (k v : String) : Headers :=
  match hs with
  | [] => [(k, v)]
  | (k', v') :: rest =>
    if caselessEq k' k then (k', v) :: rest else (k', v') :: setHeader rest k v

/-- `headers.erase(k)`: the caseless map holds at most one entry per class. -/
def eraseHeader (hs : Headers) (k : String) : Headers :=
  match hs with
  | [] => []
  | (k', v') :: rest =>
    if caselessEq k' k then rest else (k', v') :: eraseHeader rest k

/-- The duplicate-coalescing insertion of `read_request_headers`: an existing
    entry with a caselessly equal key gets `", " + value` appended, otherwise
    a fresh entry is inserted. -/
def coalesceInsert (hs : Headers) (k v : String) : Headers :=
  match hs with
  | [] => [(k, v)]
  | (k', v') :: rest =>
    if caselessEq k' k then (k', v' ++ ", " ++ v) :: rest
    else (k', v') :: coalesceInsert rest k v

/-- `std::isspace` in the default locale (the character class used by
    `boost::algorithm::trim_left` and by stream extraction). -/
def isSpaceByte (c : Char) : Bool :=
  c = ' ' ∨ c = '\t' ∨ c = '\n' ∨ c = '\x0b' ∨ c = '\x0c' ∨ c = '\r'

/-- `boost::algorithm::trim_left` on a value string. -/
def trimLeft (s : String) : String := ⟨s.data.dropWhile isSpaceByte⟩

/-- `s.find_first_of(':')` followed by the two `substr` calls of
    `read_request_headers`: split a header line at its first colon. -/
def splitAtColon (l : List Char) : Option (List Char × List Char) :=
  match l with
  | [] => none
  | c :: rest =>
    if c = ':' then some ([], rest)
    else
      match splitAtColon rest with
      | some (k, v) => some (c :: k, v)
      | none => none

/-- One header line of `read_request_headers`: missing colon is
    `invalid_request_header` (`none` here); otherwise left-trim the value and
    coalesce into the map. -/
def readHeaderLine (hs : Headers) (s : String) : Option Headers :=
  match splitAtColon s.data with
  | none => none
  | some (k, v) => some (coalesceInsert hs ⟨k⟩ (trimLeft ⟨v⟩))

/-- `HTTPTransaction::read_request_headers`, over the list of lines that
    `get_line()` would deliver: consume lines until the empty line, merging
    each one into the header map. -/
def read_request_headers (hs : Headers) : List String → Option Headers
  | [] => some hs
  | s :: rest =>
    if s = "" then some hs
    else
      match readHeaderLine hs s with
      | none => none
      | some hs' => read_request_headers hs' rest

/-- Value of a decimal digit. -/
def decDigitVal (c : Char) : Option Nat :=
  if '0' ≤ c ∧ c ≤ '9' then some (c.toNat - '0'.toNat) else none

/-- Value of a hexadecimal digit. -/
def hexDigitVal (c : Char) : Option Nat :=
  if '0' ≤ c ∧ c ≤ '9' then some (c.toNat - '0'.toNat)
  else if 'a' ≤ c ∧ c ≤ 'f' then some (c.toNat - 'a'.toNat + 10)
  else if 'A' ≤ c ∧ c ≤ 'F' then some (c.toNat - 'A'.toNat + 10)
  else none

/-- Accumulate the maximal run of digits, as `operator>>` does. -/
def accumDigits (base : Nat) (dv : Char → Option Nat) : List Char → Nat → Nat
  | [], acc => acc
  | c :: rest, acc =>
    match dv c with
    | some d => accumDigits base dv rest (acc * base + d)
    | none => acc

/-- Stream extraction of an unsigned integer (`is >> requestBytes_`): skip
    leading whitespace, then require at least one digit; trailing bytes are
    left unread and do not fail the extraction.  (The C++ `num_get` also
    tolerates a sign and, in hex, an `0x` prefix; the claims do not exercise
    those spellings.) -/
def parseNumPrefix (base : Nat) (dv : Char → Option Nat) (s : String) : Option Nat :=
  match s.data.dropWhile isSpaceByte with
  | [] => none
  | c :: rest =>
    match dv c with
    | some d => some (accumDigits base dv rest d)
    | none => none

/-- The decimal `Content-Length` extraction in `read_length`. -/
def parseDecPrefix (s : String) : Option Nat := parseNumPrefix 10 decDigitVal s

/-- The `std::hex` chunk-size extraction in `read_chunk_header`. -/
def parseHexPrefix (s : String) : Option Nat := parseNumPrefix 16 hexDigitVal s

/-- Request framing state of a transaction: `requestBytes_`,
    `requestChunksPending_` and `requestHeaders_`. -/
structure TState where
  requestBytes : Nat
  requestChunksPending : Bool
  requestHeaders : Headers
deriving Repr, DecidableEq

/-- `HTTPTransaction::read_chunk_header` over the chunk-size line that
    `get_line()` delivers and, for the terminating chunk, the following
    trailer lines (the `sungetc`/`snextc` dance in the source only
    repositions the buffered CRLF so those trailer lines can be read).
    A line whose hex extraction fails is `invalid_chunk_length`; a size of 0
    clears `requestChunksPending_` and folds the trailers into
    `requestHeaders_` via `read_request_headers`. -/
def read_chunk_header (st : TState) (line : String) (trailerLines : List String) :
    Except Err TState :=
  match parseHexPrefix line with
  | none => .error .invalid_chunk_length
  | some n =>
    if n = 0 then
      match read_request_headers st.requestHeaders trailerLines with
      | none => .error .invalid_request_header
      | some hs =>
        .ok { st with requestBytes := 0, requestChunksPending := false,
                      requestHeaders := hs }
    else .ok { st with requestBytes := n }

/-- The `Transfer-Encoding` half of `HTTPTransaction::read_length`: a present
    header whose value is not exactly `"identity"` selects chunked framing
    (`requestBytes_ = 0`, `requestChunksPending_ = true`) and eagerly reads
    the first chunk header. -/
def read_length_te (st : TState) (chunkLine : String) (trailerLines : List String) :
    Except Err TState :=
  match lookupH st.requestHeaders "transfer-encoding" with
  | some te =>
    if te ≠ "identity" then
      read_chunk_header
        { st with requestBytes := 0, requestChunksPending := true }
        chunkLine trailerLines
    else .ok st
  | none => .ok st

/-- `HTTPTransaction::read_length`: a present `Content-Length` is extracted
    first (failure reports `invalid_content_length` and returns), and only
    then is `Transfer-Encoding` consulted. -/
def read_length (hs : Headers) (chunkLine : String) (trailerLines : List String) :
    Except Err TState :=
  let st0 : TState :=
    { requestBytes := 0, requestChunksPending := false, requestHeaders := hs }
  match lookupH hs "content-length" with
  | some v =>
    match parseDecPrefix v with
    | none => .error .invalid_content_length
    | some n => read_length_te { st0 with requestBytes := n } chunkLine trailerLines
  | none => read_length_te st0 chunkLine trailerLines

/-- The request- or response-side `Connection` test in
    `BaseHTTPServer::keep_alive`: the map lookup is caseless, but the value
    is compared with `std::string::operator==`, i.e. case-sensitively. -/
def connectionClose (hs : Headers) : Bool :=
  match lookupH hs "Connection" with
  | some v => v == "close"
  | none => false

/-- `BaseHTTPServer::keep_alive`. -/
def keep_alive (status : Nat) (reqH respH : Headers) : Bool :=
  if status = 101 then false
  else if connectionClose reqH then false
  else if connectionClose respH then false
  else true

/-- `HTTPTransaction::decode`, the regex loop
    `^([^+%]*)(?:\+|(?:%([0-9A-Fa-f]{2})))`: plain characters are copied, a
    `+` becomes a space, `%HH` with two hex digits becomes the byte with
    that value, and as soon as a `%` is not followed by two hex digits the
    anchored search fails and the whole remainder is copied literally. -/
def decode : List Char → List Char
  | [] => []
  | c :: rest =>
    if c = '+' then ' ' :: decode rest
    else if c = '%' then
      match rest with
      | h1 :: h2 :: rest2 =>
        match hexDigitVal h1, hexDigitVal h2 with
        | some d1, some d2 => Char.ofNat (16 * d1 + d2) :: decode rest2
        | _, _ => c :: rest
      | _ => c :: rest
    else c :: decode rest

/-- `decode` on a whole string. -/
def decodeStr (s : String) : String := ⟨decode s.data⟩

/-- Insertion with overwrite into the `Query` map (`query[key] = value`). -/
def qInsert (q : List (String × String)) (k v : String) : List (String × String) :=
  match q with
  | [] => [(k, v)]
  | (k', v') :: rest => if k' = k then (k', v) :: rest else (k', v') :: qInsert rest k v

/-- One pass of the `parse_query` loop with explicit fuel; each successful
    match of `^([^=&]+)(=)?([^&]*)&?` consumes at least one character, so
    fuel equal to the input length runs the loop to completion.  A segment
    whose key part is empty fails the anchored match and stops the loop, and
    a pair without an explicit `=` is skipped. -/
def parse_query_loop (fuel : Nat) (l : List Char) (acc : List (String × String)) :
    List (String × String) :=
  match fuel with
  | 0 => acc
  | fuel + 1 =>
    let key := l.takeWhile (fun c => c ≠ '=' ∧ c ≠ '&')
    if key.isEmpty then acc
    else
      let rest1 := l.drop key.length
      match rest1 with
      | '=' :: rest2 =>
        let v := rest2.takeWhile (fun c => c ≠ '&')
        let rest3 := rest2.drop v.length
        let acc' := qInsert acc (decodeStr ⟨key⟩) (decodeStr ⟨v⟩)
        parse_query_loop fuel
          (match rest3 with | '&' :: r => r | r => r) acc'
      | _ =>
        let v := rest1.takeWhile (fun c => c ≠ '&')
        let rest3 := rest1.drop v.length
        parse_query_loop fuel
          (match rest3 with | '&' :: r => r | r => r) acc

/-- `HTTPTransaction::parse_query`. -/
def parse_query (s : String) : List (String × String) :=
  parse_query_loop s.data.length s.data []

/-- The request-line character class `[-!#$%^&*+._'`|~0-9A-Za-z]` (token
    characters; code point 96 is the backquote, 39 the apostrophe). -/
def isTokenChar (c : Char) : Bool :=
  ('0' ≤ c ∧ c ≤ '9') ∨ ('A' ≤ c ∧ c ≤ 'Z') ∨ ('a' ≤ c ∧ c ≤ 'z') ∨
  ['-', '!', '#', '$', '%', '^', '&', '*', '+', '.', '_', '|', '~'].contains c ∨
  c.toNat = 39 ∨ c.toNat = 96

/-- The version pattern `HTTP/\d\.\d`, matched against the whole token. -/
def versionMatch (v : List Char) : Bool :=
  match v with
  | ['H', 'T', 'T', 'P', '/', d1, '.', d2] =>
    ('0' ≤ d1 ∧ d1 ≤ '9') ∧ ('0' ≤ d2 ∧ d2 ≤ '9')
  | _ => false

/-- Split a line at every `' '` (adjacent separators yield empty parts). -/
def splitOnSpace : List Char → List (List Char)
  | [] => [[]]
  | c :: rest =>
    if c = ' ' then [] :: splitOnSpace rest
    else
      match splitOnSpace rest with
      | h :: t => (c :: h) :: t
      | [] => [[c]]

/-- The three captures of the request-line regex. -/
structure RequestLine where
  method : String
  resource : String
  version : String
deriving Repr, DecidableEq

/-- `std::regex_match` of the whole request line against
    `([-!#$%^&*+._'`|~0-9A-Za-z]+) (\S+) (HTTP/\d\.\d)`: since none of the
    three captures may contain a space, the line matches exactly when it
    splits on spaces into three nonempty parts of the right shapes. -/
def matchRequestLine (line : String) : Option RequestLine :=
  match splitOnSpace line.data with
  | [m, r, v] =>
    if !m.isEmpty && !r.isEmpty && m.all isTokenChar &&
       r.all (fun c => !isSpaceByte c) && versionMatch v
    then some ⟨⟨m⟩, ⟨r⟩, ⟨v⟩⟩ else none
  | _ => none

/-- `std::regex_match` of the request target against
    `(/[^?#]*)(?:\?([^#]*))?(?:#(.*))?`: any target beginning with `/`
    matches, yielding the raw path, query and fragment components (an
    unmatched optional group decodes to the empty string). -/
def splitResource (resource : String) : Option (String × String × String) :=
  match resource.data with
  | [] => none
  | c :: rest =>
    if c = '/' then
      let pathTail := rest.takeWhile (fun c => c ≠ '?' ∧ c ≠ '#')
      let r1 := rest.drop pathTail.length
      some (⟨'/' :: pathTail⟩,
        match r1 with
        | '?' :: r2 =>
          let q := r2.takeWhile (fun c => c ≠ '#')
          let r3 := r2.drop q.length
          (⟨q⟩, match r3 with
                | '#' :: frag => (⟨frag⟩ : String)
                | _ => "")
        | '#' :: frag => ("", ⟨frag⟩)
        | _ => ("", ""))
    else none

/-- The request metadata set by `read_request_line`. -/
structure ParsedRequest where
  requestMethod : String
  requestResource : String
  requestVersion : String
  requestPath : String
  requestFragment : String
  requestQuery : List (String × String)
deriving Repr, DecidableEq

/-- `HTTPTransaction::read_request_line` on the line `get_line()` delivers:
    grammar failure is `invalid_request_line`, a version other than
    `HTTP/1.1` is `unsupported_http_version`, and when the resource does not
    match the path regex the derived path/query/fragment members simply keep
    their default empty values while the call still succeeds. -/
def read_request_line (line : String) : Except Err ParsedRequest :=
  match matchRequestLine line with
  | none => .error .invalid_request_line
  | some rl =>
    if rl.version ≠ "HTTP/1.1" then .error .unsupported_http_version
    else
      match splitResource rl.resource with
      | some (p, q, f) =>
        .ok { requestMethod := rl.method, requestResource := rl.resource,
              requestVersion := rl.version,
              requestPath := decodeStr p, requestFragment := decodeStr f,
              requestQuery := parse_query q }
      | none =>
        .ok { requestMethod := rl.method, requestResource := rl.resource,
              requestVersion := rl.version,
              requestPath := "", requestFragment := "", requestQuery := [] }

/-- Response-side state of a transaction: `responseStatus_`,
    `responseHeaders_`, `responseBytes_`, `responseChunked_`, together with
    the request method (consulted for the bodyless-response rule) and the
    wall-clock string used for a missing `Date` header. -/
structure WState where
  responseStatus : Nat
  requestMethod : String
  responseHeaders : Headers
  responseBytes : Nat
  responseChunked : Bool
  now : String
deriving Repr, DecidableEq

/-- The head-emission work of `prepare_write_prefix` performed on a first
    write (`responseBytes_ == 0`): insert a `Date` header when absent (its
    value comes from the wall clock, modelled by the `now` field), then
    decide framing.  For a response that may carry a body (status at least
    200, not 204/304, method not `HEAD`): a `Transfer-Encoding` other than
    exactly `"identity"` selects chunked and erases `Content-Length`;
    otherwise a missing `Content-Length` selects chunked and stores
    `Transfer-Encoding: chunked`. -/
def decideFraming (st : WState) : WState :=
  let st1 :=
    if lookupH st.responseHeaders "date" = none then
      { st with responseHeaders := setHeader st.responseHeaders "Date" st.now }
    else st
  if 200 ≤ st1.responseStatus ∧ st1.responseStatus ≠ 204 ∧
     st1.responseStatus ≠ 304 ∧ st1.requestMethod ≠ "HEAD" then
    if (match lookupH st1.responseHeaders "transfer-encoding" with
        | some te => te != "identity"
        | none => false) then
      { st1 with responseChunked := true,
                 responseHeaders := eraseHeader st1.responseHeaders "content-length" }
    else if lookupH st1.responseHeaders "content-length" = none then
      { st1 with responseChunked := true,
                 responseHeaders := setHeader st1.responseHeaders "Transfer-Encoding" "chunked" }
    else st1
  else st1

/-- `HTTPTransaction::prepare_write_prefix` for a write of `nBytes` payload
    bytes, abstracted to whether the status line and header block are part
    of the returned prefix (they are exactly when `responseBytes_ == 0`)
    plus the resulting state; the serialized text itself (status line,
    header lines, chunk-size line) is not modelled. -/
def prepare_write_prefix (st : WState) (_nBytes : Nat) : Bool × WState :=
  if st.responseBytes = 0 then (true, decideFraming st) else (false, st)

/-- One `write_some`/`async_write_some` call of `nBytes` payload bytes on the
    success path: build the prefix, then `responseBytes_ += nBytes`.  The
    returned flag records whether this call emitted the status line and
    header block. -/
def write_some_model (st : WState) (nBytes : Nat) : Bool × WState :=
  let p := prepare_write_prefix st nBytes
  (p.1, { p.2 with responseBytes := p.2.responseBytes + nBytes })

/-- A sequence of writes; the result lists, per call, whether that call
    emitted the status line and header block. -/
def writeSeq (st : WState) : List Nat → List Bool
  | [] => []
  | n :: rest =>
    let p := write_some_model st n
    p.1 :: writeSeq p.2 rest

/-- The observable result of the synchronous `write_some(buffers, error)`
    when the transport write reports `transportFails`: `boost::asio::write`
    stores the error code, but the function unconditionally executes
    `responseBytes_ += nBytes; return nBytes;`.  The triple is (returned
    count, error flag, new `responseBytes_`), starting from counter `c`. -/
def write_some_sync_result (nBytes : Nat) (transportFails : Bool) (c : Nat) :
    Nat × Bool × Nat :=
  (nBytes, transportFails, c + nBytes)

/-- The observable result of `async_write_some` for the same write: on a
    transport error the completion handler runs with `(error, 0)` and
    `responseBytes_` is left unchanged; on success it runs with `nBytes`
    after `responseBytes_ += nBytes`. -/
def async_write_some_result (nBytes : Nat) (transportFails : Bool) (c : Nat) :
    Nat × Bool × Nat :=
  if transportFails then (0, true, c) else (nBytes, false, c + nBytes)

/-- Errors surfaced by the body read path in this model. -/
inductive ReadErr where
  | eof
  | wireExhausted
deriving Repr, DecidableEq

/-- Body-read state for one `read_some`/`async_read_some` call:
    `requestBytes_`, `requestChunksPending_`, the body bytes currently
    cached in `streambuf_`, and the sizes of the chunk headers still ahead
    on the wire. -/
structure RdState where
  requestBytes : Nat
  requestChunksPending : Bool
  bufBytes : Nat
  chunks : List Nat
deriving Repr, DecidableEq

/-- One synchronous `read_some` (the asynchronous variant runs the same
    lambda) on a created transaction: first `buffer_copy` from `streambuf_`
    bounded by `requestBytes_`, then `boost::asio::read` with
    `transfer_exactly(nBytesRead ? 0 : requestBytes_)` into the same
    buffers; afterwards, when the caller supplied a buffer, chunks are
    pending and the current chunk is exhausted, the per-chunk CRLF and the
    next chunk header are consumed (a size of 0 clears the pending flag; the
    wire is modelled as well-formed, with its trailer merge covered by
    `read_chunk_header`); otherwise a zero-byte result against a nonempty
    buffer reports EOF.  The transport is modelled as able to supply every
    demanded body byte. -/
def read_some_model (s : RdState) (bufferSize : Nat) : Nat × Option ReadErr × RdState :=
  let fromBuf := min bufferSize (min s.bufBytes s.requestBytes)
  let r1 := s.requestBytes - fromBuf
  let b1 := s.bufBytes - fromBuf
  let nStream := if fromBuf ≠ 0 then 0 else min r1 bufferSize
  let r2 := r1 - nStream
  let total := fromBuf + nStream
  let s1 : RdState := { s with requestBytes := r2, bufBytes := b1 }
  if bufferSize ≠ 0 ∧ s.requestChunksPending = true ∧ r2 = 0 then
    match s.chunks with
    | [] => (total, some .wireExhausted, s1)
    | c :: cs =>
      if c = 0 then (total, none, { s1 with requestChunksPending := false, chunks := cs })
      else (total, none, { s1 with requestBytes := c, chunks := cs })
  else
    (total, if total = 0 ∧ bufferSize ≠ 0 then some .eof else none, s1)

/-- Body framing state threaded through `sync_discard`. -/
structure BState where
  requestBytes : Nat
  requestChunksPending : Bool
  chunks : List Nat
deriving Repr, DecidableEq

/-- Termination measure for the discard loop: every iteration either
    shrinks `requestBytes_` or consumes a chunk header from the wire. -/
def bMeasure (s : BState) : Nat :=
  s.requestBytes + (s.chunks.map (· + 1)).sum

/-- One iteration of the `while (requestBytes_)` loop in `sync_discard`: a
    composed `boost::asio::read` through `read_some` of
    `min(requestBytes_, MaxDiscardBufferSize)` bytes
    (`MaxDiscardBufferSize = 65536`); when it empties the current chunk and
    chunks are pending, `read_some` consumes the next chunk header from the
    wire (an exhausted wire would surface as a read error). -/
def discardStepState (s : BState) : BState :=
  let n := min s.requestBytes 65536
  let r := s.requestBytes - n
  if r = 0 ∧ s.requestChunksPending = true then
    match s.chunks with
    | [] => { s with requestBytes := 0 }
    | c :: cs =>
      if c = 0 then { requestBytes := 0, requestChunksPending := false, chunks := cs }
      else { requestBytes := c, requestChunksPending := true, chunks := cs }
  else { s with requestBytes := r }

/-- The discard loop with explicit fuel, also returning the sizes of the
    buffer reads it issues; `bMeasure` strictly decreases per iteration, so
    fuel `bMeasure s` runs the loop to completion. -/
def sync_discard_fuel : Nat → BState → List Nat × BState
  | 0, s => ([], s)
  | fuel + 1, s =>
    if s.requestBytes = 0 then ([], s)
    else
      let n := min s.requestBytes 65536
      let p := sync_discard_fuel fuel (discardStepState s)
      (n :: p.1, p.2)

/-- `HTTPTransaction::sync_discard` (and the structurally identical
    `async_discard`). -/
def sync_discard (s : BState) : List Nat × BState :=
  sync_discard_fuel (bMeasure s) s

/-- Transaction state at `finish` time: the response status, the body
    framing state, the unused bytes sitting in `streambuf_` past the parsed
    head/body, and the stream's put-back deque. -/
structure FState where
  responseStatus : Nat
  body : BState
  streambufLeftover : List Char
  putback : List Char
deriving Repr, DecidableEq

/-- `HTTPTransaction::finish` (the synchronous form; `async_finish`
    performs the same steps): when `response_status() >= 200` the unread
    request body is drained via `sync_discard`, then any unused
    `streambuf_` bytes are put back in front of the stream's put-back
    buffer, and `write_some(null_buffers())` emits the terminating empty
    write.  The result is (drain read sizes, terminating-write-emitted,
    final state). -/
def finish (st : FState) : List Nat × Bool × FState :=
  let p := if 200 ≤ st.responseStatus then sync_discard st.body else ([], st.body)
  (p.1, true,
   { st with body := p.2, streambufLeftover := [],
             putback := st.streambufLeftover ++ st.putback })

theorem caselessEq_iff {a b : String} : caselessEq a b = true ↔ foldName a = foldName b := by
  simp [caselessEq]

theorem caselessEq_self (a : String) : caselessEq a a = true := by
  simp [caselessEq]

theorem lookupH_congr (hs : Headers) {k k' : String} (h : caselessEq k k' = true) :
    lookupH hs k = lookupH hs k' := by
  induction hs with
  | nil => rfl
  | cons e rest ih =>
    obtain ⟨k₀, v₀⟩ := e
    have hk : caselessEq k₀ k = caselessEq k₀ k' := by
      rw [caselessEq_iff] at h
      simp [caselessEq, h]
    simp only [lookupH, hk]
    by_cases hc : caselessEq k₀ k' = true
    · simp [hc]
    · simp [Bool.not_eq_true] at hc
      simp [hc, ih]

/-- C2 counterexample: a request whose `Connection` header value is `Close`
    (capital C) with final status 200 yields keep-alive `true`, because
    `keep_alive` compares the value with the case-sensitive
    `std::string::operator==`; the claim says this must be `false`. -/
theorem c2_counterexample : keep_alive 200 [("Connection", "Close")] [] = true := rfl

/-- C2 (amended): the dispatcher's keep-alive decision is `false` exactly
    when the final status is 101, or the request's or the response's
    `Connection` header (looked up case-insensitively by name) has the
    value exactly equal, case-sensitively, to `close`. -/
theorem c2_keep_alive_spec (status : Nat) (reqH respH : Headers) :
    keep_alive status reqH respH = false ↔
      (status = 101 ∨ lookupH reqH "Connection" = some "close" ∨
       lookupH respH "Connection" = some "close") := by
  by_cases hs : status = 101
  · simp [keep_alive, hs]
  · rcases h1 : lookupH reqH "Connection" with _ | v1 <;>
    rcases h2 : lookupH respH "Connection" with _ | v2 <;>
    simp_all [keep_alive, connectionClose] <;> tauto

/-- C9: when the transport write fails, the synchronous
    `write_some(buffers, error)` still returns the full requested count and
    adds it to `responseBytes_`, while `async_write_some` reports a
    transferred count of 0 and leaves the counter unchanged, so for any
    nonempty write the two surfaces report different byte counts. -/
theorem c9_write_error_asymmetry (n c : Nat) (h : 0 < n) :
    write_some_sync_result n true c = (n, true, c + n) ∧
    async_write_some_result n true c = (0, true, c) ∧
    (write_some_sync_result n true c).1 ≠ (async_write_some_result n true c).1 := by
  refine ⟨rfl, rfl, ?_⟩
  simpa [write_some_sync_result, async_write_some_result] using h.ne'

/-- C9 witness at a concrete failing 5-byte write. -/
theorem c9_witness :
    write_some_sync_result 5 true 10 = (5, true, 15) ∧
    async_write_some_result 5 true 10 = (0, true, 10) ∧
    (write_some_sync_result 5 true 10).1 ≠ (async_write_some_result 5 true 10).1 :=
  c9_write_error_asymmetry 5 10 (by decide)

/-- C6: once the request body is in the terminal state
    (`requestBytes_ == 0` and `!requestChunksPending_`), a read that
    requests at least one byte delivers zero bytes together with an EOF
    error and leaves the state terminal; and the call that delivers the
    final body bytes — whether the body was length-delimited or the
    terminating chunk header follows — returns those bytes with no error,
    so EOF only appears on the following call. -/
theorem c6_eof_after_final (s : RdState) (k : Nat) (cs : List Nat) :
    (s.requestBytes = 0 → s.requestChunksPending = false → 0 < k →
      (read_some_model s k).1 = 0 ∧ (read_some_model s k).2.1 = some .eof ∧
      (read_some_model s k).2.2.requestBytes = 0 ∧
      (read_some_model s k).2.2.requestChunksPending = false) ∧
    (0 < s.requestBytes → s.requestChunksPending = false → s.requestBytes ≤ k →
      (s.bufBytes = 0 ∨ s.requestBytes ≤ s.bufBytes) →
      (read_some_model s k).1 = s.requestBytes ∧ (read_some_model s k).2.1 = none ∧
      (read_some_model s k).2.2.requestBytes = 0 ∧
      (read_some_model s k).2.2.requestChunksPending = false) ∧
    (0 < s.requestBytes → s.requestChunksPending = true → s.requestBytes ≤ k →
      (s.bufBytes = 0 ∨ s.requestBytes ≤ s.bufBytes) → s.chunks = 0 :: cs →
      (read_some_model s k).1 = s.requestBytes ∧ (read_some_model s k).2.1 = none ∧
      (read_some_model s k).2.2.requestBytes = 0 ∧
      (read_some_model s k).2.2.requestChunksPending = false) := by
  refine ⟨?_, ?_, ?_⟩
  · intro h0 hp hk
    simp [read_some_model, h0, hp, hk.ne']
  · intro h0 hp hk hbuf
    have hk0 : k ≠ 0 := by omega
    rcases hbuf with hb | hb
    · have e1 : min s.bufBytes s.requestBytes = 0 := by omega
      have e2 : min s.requestBytes k = s.requestBytes := by omega
      simp [read_some_model, e1, e2, hp, hk0, h0.ne']
    · have e1 : min k (min s.bufBytes s.requestBytes) = s.requestBytes := by omega
      simp [read_some_model, e1, hp, hk0, h0.ne']
  · intro h0 hp hk hbuf hch
    have hk0 : k ≠ 0 := by omega
    rcases hbuf with hb | hb
    · have e1 : min s.bufBytes s.requestBytes = 0 := by omega
      have e2 : min s.requestBytes k = s.requestBytes := by omega
      simp [read_some_model, e1, e2, hp, hk0, h0.ne', hch]
    · have e1 : min k (min s.bufBytes s.requestBytes) = s.requestBytes := by omega
      simp [read_some_model, e1, hp, hk0, h0.ne', hch]

/-- C6 witness: a terminal-state read of up to 8 bytes EOFs with 0 bytes; a
    4-byte length-delimited tail is delivered in full with no error; a
    3-byte final chunk followed by the terminating chunk header is
    delivered in full with no error. -/
theorem c6_witness :
    ((read_some_model ⟨0, false, 0, []⟩ 8).1 = 0 ∧
     (read_some_model ⟨0, false, 0, []⟩ 8).2.1 = some .eof ∧
     (read_some_model ⟨0, false, 0, []⟩ 8).2.2.requestBytes = 0 ∧
     (read_some_model ⟨0, false, 0, []⟩ 8).2.2.requestChunksPending = false) ∧
    ((read_some_model ⟨4, false, 0, []⟩ 8).1 = 4 ∧
     (read_some_model ⟨4, false, 0, []⟩ 8).2.1 = none ∧
     (read_some_model ⟨4, false, 0, []⟩ 8).2.2.requestBytes = 0 ∧
     (read_some_model ⟨4, false, 0, []⟩ 8).2.2.requestChunksPending = false) ∧
    ((read_some_model ⟨3, true, 0, [0]⟩ 8).1 = 3 ∧
     (read_some_model ⟨3, true, 0, [0]⟩ 8).2.1 = none ∧
     (read_some_model ⟨3, true, 0, [0]⟩ 8).2.2.requestBytes = 0 ∧
     (read_some_model ⟨3, true, 0, [0]⟩ 8).2.2.requestChunksPending = false) :=
  ⟨(c6_eof_after_final ⟨0, false, 0, []⟩ 8 []).1 (by decide) (by decide) (by decide),
   (c6_eof_after_final ⟨4, false, 0, []⟩ 8 []).2.1 (by decide) (by decide) (by decide)
     (Or.inl (by decide)),
   (c6_eof_after_final ⟨3, true, 0, [0]⟩ 8 []).2.2 (by decide) (by decide) (by decide)
     (Or.inl (by decide)) (by decide)⟩

/-- C1 counterexample: a request head carrying both
    `Transfer-Encoding: chunked` and the unparsable `Content-Length: abc`
    is rejected with `invalid_content_length` by `read_length` — it is not
    framed as chunked, because the source extracts `Content-Length` before
    it ever looks at `Transfer-Encoding`. -/
theorem c1_counterexample :
    read_length [("Transfer-Encoding", "chunked"), ("Content-Length", "abc")] "5" [] =
      .error .invalid_content_length := rfl

/-- C1 (amended): `read_length` always parses a present `Content-Length`
    first, reporting `invalid_content_length` on failure even when a
    non-identity `Transfer-Encoding` is present; only afterwards does a
    `Transfer-Encoding` other than `identity` select chunked framing
    (`requestBytes_` reset to 0, `requestChunksPending_` set, first chunk
    header read eagerly), overriding any parsed length; with no such
    `Transfer-Encoding`, the parsed `Content-Length` (or the default 0)
    stands with no chunks pending. -/
theorem c1_read_length_spec (hs : Headers) (cl chunkLine : String)
    (trailerLines : List String) (n : Nat) (te : String) :
    (lookupH hs "content-length" = some cl → parseDecPrefix cl = none →
      read_length hs chunkLine trailerLines = .error .invalid_content_length) ∧
    (lookupH hs "content-length" = none →
      lookupH hs "transfer-encoding" = some te → te ≠ "identity" →
      read_length hs chunkLine trailerLines =
        read_chunk_header
          { requestBytes := 0, requestChunksPending := true, requestHeaders := hs }
          chunkLine trailerLines) ∧
    (lookupH hs "content-length" = some cl → parseDecPrefix cl = some n →
      lookupH hs "transfer-encoding" = some te → te ≠ "identity" →
      read_length hs chunkLine trailerLines =
        read_chunk_header
          { requestBytes := 0, requestChunksPending := true, requestHeaders := hs }
          chunkLine trailerLines) ∧
    (lookupH hs "content-length" = some cl → parseDecPrefix cl = some n →
      lookupH hs "transfer-encoding" = none →
      read_length hs chunkLine trailerLines =
        .ok { requestBytes := n, requestChunksPending := false, requestHeaders := hs }) ∧
    (lookupH hs "content-length" = none → lookupH hs "transfer-encoding" = none →
      read_length hs chunkLine trailerLines =
        .ok { requestBytes := 0, requestChunksPending := false, requestHeaders := hs }) := by
  refine ⟨?_, ?_, ?_, ?_, ?_⟩
  · intro hcl hparse
    simp [read_length, hcl, hparse]
  · intro hcl hte hid
    simp [read_length, read_length_te, hcl, hte, hid]
  · intro hcl hparse hte hid
    simp [read_length, read_length_te, hcl, hparse, hte, hid]
  · intro hcl hparse hte
    simp [read_length, read_length_te, hcl, hparse, hte]
  · intro hcl hte
    simp [read_length, read_length_te, hcl, hte]

/-- C1 witness: the failing-parse case at a concrete head with both
    headers, and the chunked override at a concrete parsable head. -/
theorem c1_witness :
    read_length [("Transfer-Encoding", "chunked"), ("Content-Length", "abc")] "5" [] =
      .error .invalid_content_length ∧
    read_length [("Transfer-Encoding", "chunked"), ("Content-Length", "7")] "5" [] =
      read_chunk_header
        { requestBytes := 0, requestChunksPending := true,
          requestHeaders := [("Transfer-Encoding", "chunked"), ("Content-Length", "7")] }
        "5" [] :=
  ⟨(c1_read_length_spec [("Transfer-Encoding", "chunked"), ("Content-Length", "abc")]
      "abc" "5" [] 0 "chunked").1 (by decide) (by decide),
   (c1_read_length_spec [("Transfer-Encoding", "chunked"), ("Content-Length", "7")]
      "7" "5" [] 7 "chunked").2.2.1 (by decide) (by decide) (by decide) (by decide)⟩

theorem data_append (a b : String) : (a ++ b).data = a.data ++ b.data := rfl

theorem splitAtColon_append (k rest : List Char) (hk : ':' ∉ k) :
    splitAtColon (k ++ ':' :: rest) = some (k, rest) := by
  induction k with
  | nil => simp [splitAtColon]
  | cons c cs ih =>
    have hc : c ≠ ':' := fun h => hk (by simp [h])
    have hk' : ':' ∉ cs := fun h => hk (List.mem_cons_of_mem _ h)
    simp [splitAtColon, hc, ih hk']

theorem line_ne_empty (k v : String) : k ++ ": " ++ v ≠ "" := by
  intro h
  have hd := congrArg String.data h
  simp [data_append] at hd

theorem readHeaderLine_eq (hs : Headers) (k v : String) (hk : ':' ∉ k.data)
    (hv : trimLeft v = v) :
    readHeaderLine hs (k ++ ": " ++ v) = some (coalesceInsert hs k v) := by
  have hdata : (k ++ ": " ++ v).data = k.data ++ ':' :: ' ' :: v.data := by
    simp [data_append]
  have hv' : v.data.dropWhile isSpaceByte = v.data := congrArg String.data hv
  rw [readHeaderLine, hdata, splitAtColon_append _ _ hk]
  simp [trimLeft, List.dropWhile, isSpaceByte, hv']

theorem lookupH_coalesceInsert (hs : Headers) (k v : String) :
    lookupH (coalesceInsert hs k v) k =
      some (match lookupH hs k with
            | some old => old ++ ", " ++ v
            | none => v) := by
  induction hs with
  | nil => simp [coalesceInsert, lookupH, caselessEq_self]
  | cons e rest ih =>
    obtain ⟨k0, v0⟩ := e
    by_cases hc : caselessEq k0 k = true
    · simp [coalesceInsert, lookupH, hc]
    · have hc' : caselessEq k0 k = false := by
        simpa using hc
      simp [coalesceInsert, lookupH, hc', ih]

/-- C5: a request head presenting the same header name twice in different
    letter cases coalesces the values into one entry joined by `", "` in
    arrival order, and a header lookup is invariant under changing the case
    of the queried name. -/
theorem c5_coalesce_and_caseless (k1 k2 v1 v2 : String) (hs : Headers) (k k' : String)
    (heq : caselessEq k1 k2 = true) (hk1 : ':' ∉ k1.data) (hk2 : ':' ∉ k2.data)
    (hv1 : trimLeft v1 = v1) (hv2 : trimLeft v2 = v2)
    (hkk : caselessEq k k' = true) :
    read_request_headers [] [k1 ++ ": " ++ v1, k2 ++ ": " ++ v2, ""] =
      some [(k1, v1 ++ ", " ++ v2)] ∧
    lookupH hs k = lookupH hs k' := by
  refine ⟨?_, lookupH_congr hs hkk⟩
  simp only [read_request_headers]
  rw [if_neg (line_ne_empty k1 v1), readHeaderLine_eq _ _ _ hk1 hv1]
  simp only [read_request_headers]
  rw [if_neg (line_ne_empty k2 v2), readHeaderLine_eq _ _ _ hk2 hv2]
  simp [coalesceInsert, heq, read_request_headers]

/-- C5 witness: `H: a` then `h: b` coalesce to `H: a, b`, and looking up
    `Content-Type` and `CONTENT-TYPE` in a concrete map agree. -/
theorem c5_witness :
    read_request_headers [] ["H" ++ ": " ++ "a", "h" ++ ": " ++ "b", ""] =
      some [("H", "a" ++ ", " ++ "b")] ∧
    lookupH [("content-type", "text/html")] "Content-Type" =
      lookupH [("content-type", "text/html")] "CONTENT-TYPE" :=
  c5_coalesce_and_caseless "H" "h" "a" "b" [("content-type", "text/html")]
    "Content-Type" "CONTENT-TYPE" (by decide) (by decide) (by decide) (by decide)
    (by decide) (by decide)

/-- C4: reading a chunk header whose hexadecimal length parses as 0 turns
    off `requestChunksPending_`, and the trailer lines that follow are
    parsed with the header rules and merged into the request headers with
    duplicate coalescing, so the trailer value is observable through the
    header map afterwards. -/
theorem c4_terminating_chunk_trailers (st : TState) (line : String)
    (hb : st.requestBytes = 0) (hp : st.requestChunksPending = true)
    (hline : parseHexPrefix line = some 0)
    (tk tv : String) (hk : ':' ∉ tk.data) (hv : trimLeft tv = tv) :
    read_chunk_header st line [tk ++ ": " ++ tv, ""] =
      .ok { requestBytes := 0, requestChunksPending := false,
            requestHeaders := coalesceInsert st.requestHeaders tk tv } ∧
    lookupH (coalesceInsert st.requestHeaders tk tv) tk =
      some (match lookupH st.requestHeaders tk with
            | some old => old ++ ", " ++ tv
            | none => tv) := by
  refine ⟨?_, lookupH_coalesceInsert _ _ _⟩
  rw [read_chunk_header, hline]
  simp only [read_request_headers]
  rw [if_neg (line_ne_empty tk tv), readHeaderLine_eq _ _ _ hk hv]
  simp [read_request_headers]

/-- C4 witness: terminating chunk line `0` with trailer `X-Tag: v` on a
    concrete chunked transaction state. -/
theorem c4_witness :
    read_chunk_header ⟨0, true, [("A", "1")]⟩ "0" ["X-Tag" ++ ": " ++ "v", ""] =
      .ok { requestBytes := 0, requestChunksPending := false,
            requestHeaders := coalesceInsert [("A", "1")] "X-Tag" "v" } ∧
    lookupH (coalesceInsert [("A", "1")] "X-Tag" "v") "X-Tag" =
      some (match lookupH [("A", "1")] "X-Tag" with
            | some old => old ++ ", " ++ "v"
            | none => "v") :=
  c4_terminating_chunk_trailers ⟨0, true, [("A", "1")]⟩ "0" (by decide) (by decide)
    (by decide) "X-Tag" "v" (by decide) (by decide)

theorem decideFraming_responseBytes (st : WState) :
    (decideFraming st).responseBytes = st.responseBytes := by
  simp only [decideFraming]
  split_ifs <;> rfl

theorem writeSeq_flags_false (st : WState) (hb : st.responseBytes ≠ 0) (ns : List Nat) :
    writeSeq st ns = List.replicate ns.length false := by
  induction ns generalizing st with
  | nil => rfl
  | cons n rest ih =>
    have h1 : write_some_model st n =
        (false, { st with responseBytes := st.responseBytes + n }) := by
      simp [write_some_model, prepare_write_prefix, hb]
    have h2 : ({ st with responseBytes := st.responseBytes + n } : WState).responseBytes ≠ 0 := by
      simp
      omega
    simp [writeSeq, h1, List.replicate_succ, ih _ h2]

/-- C3 counterexample: on a fresh transaction (status 200, method GET, no
    headers yet), a first `write_some` with an empty buffer followed by a
    one-byte write emits the status line and header block on BOTH calls,
    because the guard is `responseBytes_ == 0` and an empty write leaves
    that counter at 0; the claim says the head is serialized exactly once
    and never again. -/
theorem c3_counterexample :
    writeSeq ⟨200, "GET", [], 0, false, "now"⟩ [0, 1] = [true, true] := rfl

/-- C3 (amended): the status line and header block are included in the
    prefix of every `write_some` made while `bytes_written == 0`; hence
    they are emitted exactly once across any write sequence whose first
    call carries at least one payload byte (an initial empty write instead
    repeats the head on the next call). -/
theorem c3_head_once_nonempty_first (st : WState) (n : Nat) (rest : List Nat)
    (h0 : st.responseBytes = 0) (hn : 0 < n) :
    (writeSeq st (n :: rest)).count true = 1 := by
  have h1 : write_some_model st n =
      (true, { decideFraming st with
               responseBytes := (decideFraming st).responseBytes + n }) := by
    simp [write_some_model, prepare_write_prefix, h0]
  have h2 : ({ decideFraming st with
               responseBytes := (decideFraming st).responseBytes + n } : WState).responseBytes ≠ 0 := by
    simp [decideFraming_responseBytes, h0]
    omega
  simp only [writeSeq, h1]
  rw [writeSeq_flags_false _ h2]
  simp [List.count_replicate]

/-- C3 witness: a 2-byte then 3-byte write sequence on a fresh transaction
    emits the head exactly once. -/
theorem c3_witness :
    (writeSeq ⟨200, "GET", [], 0, false, "now"⟩ [2, 3]).count true = 1 :=
  c3_head_once_nonempty_first ⟨200, "GET", [], 0, false, "now"⟩ 2 [3]
    (by decide) (by decide)

/-- C8 counterexample: the request-target `/a+b` yields
    `request_path == "/a b"`, not `/a+b` as the claim states: `decode` is
    shared with the query decoder and maps `+` to a space in the path and
    fragment as well. -/
theorem c8_counterexample :
    (read_request_line "GET /a+b HTTP/1.1").toOption.map ParsedRequest.requestPath =
      some "/a b" ∧ ("/a b" : String) ≠ "/a+b" := by
  exact ⟨rfl, by decide⟩

/-- C8 (amended): path and fragment are percent-decoded and, exactly like
    query components, a `+` in them becomes a space (`%HH` becomes the byte
    with that hex value); `/a+b` yields `request_path == "/a b"`, and a
    fragment `a+b%41` yields `request_fragment == "a bA"`. -/
theorem c8_decode_spec (cs : List Char) (h1 h2 : Char) (d1 d2 : Nat)
    (hh1 : hexDigitVal h1 = some d1) (hh2 : hexDigitVal h2 = some d2) :
    decode ('+' :: cs) = ' ' :: decode cs ∧
    decode ('%' :: h1 :: h2 :: cs) = Char.ofNat (16 * d1 + d2) :: decode cs ∧
    (read_request_line "GET /a+b HTTP/1.1").toOption.map ParsedRequest.requestPath =
      some "/a b" ∧
    (read_request_line "GET /x#a+b%41 HTTP/1.1").toOption.map ParsedRequest.requestFragment =
      some "a bA" := by
  refine ⟨?_, ?_, rfl, rfl⟩
  · match cs with
    | [] => rfl
    | [x] => rfl
    | a :: b :: t => rfl
  · simp [decode, hh1, hh2]

/-- C8 witness: the decode rules at concrete characters. -/
theorem c8_witness :
    decode ('+' :: []) = ' ' :: decode [] ∧
    decode ('%' :: '4' :: '1' :: []) = Char.ofNat (16 * 4 + 1) :: decode [] ∧
    (read_request_line "GET /a+b HTTP/1.1").toOption.map ParsedRequest.requestPath =
      some "/a b" ∧
    (read_request_line "GET /x#a+b%41 HTTP/1.1").toOption.map ParsedRequest.requestFragment =
      some "a bA" :=
  c8_decode_spec [] '4' '1' 4 1 (by decide) (by decide)

theorem discardStep_measure (s : BState) (h : s.requestBytes ≠ 0) :
    bMeasure (discardStepState s) < bMeasure s := by
  unfold discardStepState bMeasure
  by_cases hc : (s.requestBytes - min s.requestBytes 65536 = 0 ∧
      s.requestChunksPending = true)
  · rcases hch : s.chunks with _ | ⟨c, cs⟩
    · simp [hc, hch]
      omega
    · by_cases hc0 : c = 0 <;> simp [hc, hch, hc0] <;> omega
  · simp [hc]
    omega

theorem discardStep_inv (s : BState) (h : s.requestBytes ≠ 0)
    (h2 : s.requestChunksPending = true → 0 ∈ s.chunks) :
    ((discardStepState s).requestBytes = 0 →
      (discardStepState s).requestChunksPending = false) ∧
    ((discardStepState s).requestChunksPending = true →
      0 ∈ (discardStepState s).chunks) := by
  unfold discardStepState
  by_cases hc : (s.requestBytes - min s.requestBytes 65536 = 0 ∧
      s.requestChunksPending = true)
  · rcases hch : s.chunks with _ | ⟨c, cs⟩
    · exact absurd (h2 hc.2) (by simp [hch])
    · by_cases hc0 : c = 0
      · simp [hc, hch, hc0]
      · have hm : 0 ∈ c :: cs := by
          rw [← hch]
          exact h2 hc.2
        have hm' : 0 ∈ cs := by
          rcases List.mem_cons.mp hm with h0 | h0
          · exact absurd h0.symm hc0
          · exact h0
        simp [hc, hch, hc0, hm']
  · rw [if_neg hc]
    refine ⟨?_, h2⟩
    intro hr0
    rcases Bool.eq_false_or_eq_true s.requestChunksPending with hT | hF
    · exact absurd ⟨hr0, hT⟩ hc
    · exact hF

theorem sync_discard_fuel_spec (fuel : Nat) : ∀ (s : BState), bMeasure s ≤ fuel →
    (s.requestBytes = 0 → s.requestChunksPending = false) →
    (s.requestChunksPending = true → 0 ∈ s.chunks) →
    (sync_discard_fuel fuel s).2.requestBytes = 0 ∧
    (sync_discard_fuel fuel s).2.requestChunksPending = false ∧
    ∀ n ∈ (sync_discard_fuel fuel s).1, n ≤ 65536 := by
  induction fuel with
  | zero =>
    intro s hm h1 h2
    have hrb : s.requestBytes = 0 := by
      unfold bMeasure at hm
      omega
    simp [sync_discard_fuel, hrb, h1 hrb]
  | succ fuel ih =>
    intro s hm h1 h2
    by_cases hrb : s.requestBytes = 0
    · simp [sync_discard_fuel, hrb, h1 hrb]
    · have hlt := discardStep_measure s hrb
      have hinv := discardStep_inv s hrb h2
      have hrec := ih (discardStepState s) (by omega) hinv.1 hinv.2
      simp only [sync_discard_fuel, hrb, if_false]
      refine ⟨hrec.1, hrec.2.1, ?_⟩
      intro n hn
      rcases List.mem_cons.mp hn with h0 | h0
      · rw [h0]
        exact Nat.min_le_right _ _
      · exact hrec.2.2 n h0

/-- C7: under the reachable-state invariants (a zero remainder implies no
    chunks pending, and a pending chunked body still has its terminating
    chunk ahead on the wire), `finish` with status at least 200 drains the
    unread request body with reads never exceeding the 64 KiB discard
    buffer until `requestBytes_ == 0` and `!requestChunksPending_`; with an
    informational status (at least 100 but below 200) the drain is skipped
    and the body state is untouched; in both cases the leftover delimiter
    buffer bytes are put back in front of the stream's put-back buffer and
    the terminating empty write is emitted. -/
theorem c7_finish (st : FState)
    (h1 : st.body.requestBytes = 0 → st.body.requestChunksPending = false)
    (h2 : st.body.requestChunksPending = true → 0 ∈ st.body.chunks)
    (hst : 100 ≤ st.responseStatus) :
    (200 ≤ st.responseStatus →
      ((finish st).2.2.body.requestBytes = 0 ∧
       (finish st).2.2.body.requestChunksPending = false ∧
       ∀ n ∈ (finish st).1, n ≤ 65536)) ∧
    (st.responseStatus < 200 →
      ((finish st).2.2.body = st.body ∧ (finish st).1 = [])) ∧
    (finish st).2.2.streambufLeftover = [] ∧
    (finish st).2.2.putback = st.streambufLeftover ++ st.putback ∧
    (finish st).2.1 = true := by
  refine ⟨?_, ?_, by simp [finish], by simp [finish], by simp [finish]⟩
  · intro h200
    have hspec := sync_discard_fuel_spec (bMeasure st.body) st.body le_rfl h1 h2
    simp only [finish, sync_discard, if_pos h200]
    exact hspec
  · intro hlt
    have hn : ¬ 200 ≤ st.responseStatus := by omega
    simp [finish, hn]

/-- C7 witness: a 70000-byte current chunk followed by a 5-byte chunk and
    the terminator is drained in reads of at most 64 KiB down to the
    terminal state, and a status-100 finish leaves a pending 7-byte body
    untouched; put-back behaviour at the concrete states. -/
theorem c7_witness :
    ((finish ⟨200, ⟨70000, true, [5, 0]⟩, ['x'], ['y']⟩).2.2.body.requestBytes = 0 ∧
     (finish ⟨200, ⟨70000, true, [5, 0]⟩, ['x'], ['y']⟩).2.2.body.requestChunksPending = false ∧
     ∀ n ∈ (finish ⟨200, ⟨70000, true, [5, 0]⟩, ['x'], ['y']⟩).1, n ≤ 65536) ∧
    ((finish ⟨100, ⟨7, false, []⟩, ['x'], ['y']⟩).2.2.body = ⟨7, false, []⟩ ∧
     (finish ⟨100, ⟨7, false, []⟩, ['x'], ['y']⟩).1 = []) ∧
    (finish ⟨200, ⟨70000, true, [5, 0]⟩, ['x'], ['y']⟩).2.2.putback = ['x'] ++ ['y'] :=
  ⟨(c7_finish ⟨200, ⟨70000, true, [5, 0]⟩, ['x'], ['y']⟩ (by decide) (by decide)
      (by decide)).1 (by decide),
   (c7_finish ⟨100, ⟨7, false, []⟩, ['x'], ['y']⟩ (by decide) (by decide)
      (by decide)).2.1 (by decide),
   (c7_finish ⟨200, ⟨70000, true, [5, 0]⟩, ['x'], ['y']⟩ (by decide) (by decide)
      (by decide)).2.2.2.1⟩

theorem splitOnSpace_no_space (a : List Char) (h : ' ' ∉ a) : splitOnSpace a = [a] := by
  induction a with
  | nil => rfl
  | cons c cs ih =>
    have hc : c ≠ ' ' := fun hx => h (by simp [hx])
    have h' : ' ' ∉ cs := fun hx => h (List.mem_cons_of_mem _ hx)
    simp [splitOnSpace, hc, ih h']

theorem splitOnSpace_append (a b : List Char) (h : ' ' ∉ a) :
    splitOnSpace (a ++ ' ' :: b) = a :: splitOnSpace b := by
  induction a with
  | nil => simp [splitOnSpace]
  | cons c cs ih =>
    have hc : c ≠ ' ' := fun hx => h (by simp [hx])
    have h' : ' ' ∉ cs := fun hx => h (List.mem_cons_of_mem _ hx)
    simp [splitOnSpace, hc, ih h']

theorem token_no_space {m : List Char} (h : m.all isTokenChar = true) : ' ' ∉ m := by
  intro hm
  have := List.all_eq_true.mp h _ hm
  exact absurd this (by decide)

theorem nonspace_no_space {r : List Char} (h : r.all (fun c => !isSpaceByte c) = true) :
    ' ' ∉ r := by
  intro hr
  have := List.all_eq_true.mp h _ hr
  exact absurd this (by decide)

/-- C10: a request line whose method matches the token class and whose
    target is any nonempty whitespace-free string not starting with `/`
    (e.g. `OPTIONS * HTTP/1.1`, or an absolute-URI target) parses with no
    error: the raw target lands in `request_resource` while the derived
    `request_path`, `request_query` and `request_fragment` keep their
    default empty values, because the path regex requires a leading `/`
    and its failure is not an error. -/
theorem c10_non_slash_target (m r : List Char)
    (hm0 : m ≠ []) (hr0 : r ≠ [])
    (hmtok : m.all isTokenChar = true)
    (hrns : r.all (fun c => !isSpaceByte c) = true)
    (hrs : r.head? ≠ some '/') :
    read_request_line ⟨m ++ (' ' :: (r ++ (' ' :: ("HTTP/1.1").data)))⟩ =
      .ok { requestMethod := ⟨m⟩, requestResource := ⟨r⟩,
            requestVersion := "HTTP/1.1",
            requestPath := "", requestFragment := "", requestQuery := [] } := by
  have hmsp : ' ' ∉ m := token_no_space hmtok
  have hrsp : ' ' ∉ r := nonspace_no_space hrns
  have hvsp : ' ' ∉ ("HTTP/1.1").data := by decide
  have hsplit : splitOnSpace (m ++ (' ' :: (r ++ (' ' :: ("HTTP/1.1").data)))) =
      [m, r, ("HTTP/1.1").data] := by
    rw [splitOnSpace_append _ _ hmsp, splitOnSpace_append _ _ hrsp,
        splitOnSpace_no_space _ hvsp]
  have hmE : m.isEmpty = false := by
    cases m with
    | nil => exact absurd rfl hm0
    | cons c cs => rfl
  have hrE : r.isEmpty = false := by
    cases r with
    | nil => exact absurd rfl hr0
    | cons c cs => rfl
  have hv : versionMatch (("HTTP/1.1").data) = true := by decide
  have hmatch : matchRequestLine ⟨m ++ (' ' :: (r ++ (' ' :: ("HTTP/1.1").data)))⟩ =
      some ⟨⟨m⟩, ⟨r⟩, "HTTP/1.1"⟩ := by
    simp only [matchRequestLine]
    rw [show splitOnSpace (m ++ ' ' :: (r ++ [' ', 'H', 'T', 'T', 'P', '/', '1', '.', '1'])) =
          [m, r, ("HTTP/1.1").data] from hsplit]
    simp [hmE, hrE, hmtok, hrns, hv]
  rw [read_request_line, hmatch]
  obtain ⟨c, cs, rfl⟩ : ∃ c cs, r = c :: cs := by
    cases r with
    | nil => exact absurd rfl hr0
    | cons c cs => exact ⟨c, cs, rfl⟩
  have hc : c ≠ '/' := by
    simpa using hrs
  have hsr : splitResource ⟨c :: cs⟩ = none := by
    simp [splitResource, hc]
  simp [hsr]

/-- C10 witness: `OPTIONS * HTTP/1.1` parses successfully with raw resource
    `*` and empty path, query and fragment. -/
theorem c10_witness :
    read_request_line ⟨"OPTIONS".data ++ (' ' :: ("*".data ++ (' ' :: ("HTTP/1.1").data)))⟩ =
      .ok { requestMethod := ⟨"OPTIONS".data⟩, requestResource := ⟨"*".data⟩,
            requestVersion := "HTTP/1.1",
            requestPath := "", requestFragment := "", requestQuery := [] } :=
  c10_non_slash_target "OPTIONS".data "*".data (by decide) (by decide)
    (by decide) (by decide) (by decide)

end Chunky
